import Mathlib

/-!
Verification of the FIFO cost-basis and portfolio-aggregation engine of the
stock-gain-tracker repository (src/utils/calculations.ts), embedded shallowly:
quantities, prices and fees are rationals, timestamps are integers, and the
stateful lot-queue loops become explicit state-passing recursion.
-/

namespace StockGain

/-- Transaction kind, mirroring the TransactionType union in types.ts. -/
inductive TxType where
  | buy
  | sell
deriving DecidableEq, Repr

/-- Embedding of the StockEntry record from types.ts, restricted to the fields
the calculation engine reads.  Dates are modelled as integer timestamps (the
code compares entries with new Date(d).getTime()). -/
structure StockEntry where
  symbol : String
  stockName : String
  type : TxType
  quantity : ℚ
  price : ℚ
  date : ℤ
  fees : ℚ
deriving DecidableEq, Repr

/-- Insert an entry into a date-ascending list, after all entries whose date
is less than or equal to its own.  Used to model the stable ascending sort
performed by Array.prototype.sort with comparator (a, b) => dateA - dateB. -/
def insertEntryAsc (e : StockEntry) : List StockEntry → List StockEntry
  | [] => [e]
  | x :: xs => if e.date < x.date then e :: x :: xs else x :: insertEntryAsc e xs

/-- Stable ascending sort by date: entries are inserted in original order, and
each is placed after every already-placed entry with an equal date, matching
the stable in-place sort of the source. -/
def sortByDate (l : List StockEntry) : List StockEntry :=
  l.foldl (fun acc e => insertEntryAsc e acc) []

/-- Insert an entry into a date-descending list, after all entries whose date
is greater than or equal to its own (stable descending sort, comparator
(a, b) => dateB - dateA). -/
def insertEntryDesc (e : StockEntry) : List StockEntry → List StockEntry
  | [] => [e]
  | x :: xs => if x.date < e.date then e :: x :: xs else x :: insertEntryDesc e xs

/-- Stable descending sort by date. -/
def sortByDateDesc (l : List StockEntry) : List StockEntry :=
  l.foldl (fun acc e => insertEntryDesc e acc) []

/-- Open buy lot held in the FIFO queue: the object
{quantity, price, fees} pushed by calculateRealizedProfitLossForStock.
quantity is the remaining quantity; fees stays at the full original fee even
when the lot is partially consumed (exactly as in the source). -/
structure BuyLot where
  quantity : ℚ
  price : ℚ
  fees : ℚ
deriving DecidableEq, Repr

/-- Pending sell record {quantity, price, fees, date} for sells that could not
be matched against any open lot yet. -/
structure PendingSell where
  quantity : ℚ
  price : ℚ
  fees : ℚ
  date : ℤ
deriving DecidableEq, Repr

/-- Embedding of the inner matching loop
  while (sharesToSell > 0 && buyQueue.length > 0) { ... }
shared by the sell branch and the pending-sell resolution: consume from the
front of the queue, cost per share = price + fees / quantity (the CURRENT
remaining quantity of the lot), accumulate cost basis, drop a lot when its
quantity reaches 0.  Returns (remaining sharesToSell, accumulated costBasis,
remaining queue). -/
def consumeLots (s cb : ℚ) : List BuyLot → ℚ × ℚ × List BuyLot
  | [] => (s, cb, [])
  | lot :: rest =>
    if s > 0 then
      if lot.quantity ≤ s then
        consumeLots (s - lot.quantity)
          (cb + lot.quantity * (lot.price + lot.fees / lot.quantity)) rest
      else
        (0, cb + s * (lot.price + lot.fees / lot.quantity),
          { lot with quantity := lot.quantity - s } :: rest)
    else (s, cb, lot :: rest)

/-- State threaded through calculateRealizedProfitLossForStock.  The fields
realized, buyQueue and pendingSells mirror totalRealizedProfitLoss, buyQueue
and pendingSells of the source.  consumed and saleCostBases are ghost
observers that never influence control flow: consumed sums every
costBasis contribution taken out of the queue, and saleCostBases records the
costBasis of each realized-sale record in emission order. -/
structure MatchState where
  buyQueue : List BuyLot
  pendingSells : List PendingSell
  realized : ℚ
  consumed : ℚ
  saleCostBases : List ℚ
deriving DecidableEq, Repr

/-- Embedding of the pending-sell resolution loop run after each buy
(lines 80-118 of calculations.ts): walk the pending sells in order; a fully
matched pending sell realizes (quantity * price - fees) - costBasis and is
removed; a partially matched one stays with its reduced quantity (its
costBasis so far is discarded by the source, which the ghost field consumed
still records). -/
def resolvePendingSells (queue : List BuyLot) (realized consumed : ℚ)
    (bases : List ℚ) : List PendingSell →
    List BuyLot × List PendingSell × ℚ × ℚ × List ℚ
  | [] => (queue, [], realized, consumed, bases)
  | p :: rest =>
    let r := consumeLots p.quantity 0 queue
    let s := r.1
    let cb := r.2.1
    let queue1 := r.2.2
    if s = 0 then
      let proceeds := p.quantity * p.price - p.fees
      resolvePendingSells queue1 (realized + (proceeds - cb)) (consumed + cb)
        (bases ++ [cb]) rest
    else
      match resolvePendingSells queue1 realized (consumed + cb) bases rest with
      | (q2, rest2, real2, cons2, b2) =>
        (q2, { p with quantity := s } :: rest2, real2, cons2, b2)

/-- Embedding of the body of the forEach over sorted entries in
calculateRealizedProfitLossForStock: a buy pushes a lot and resolves pending
sells; a sell consumes from the queue, pushes an unmatched remainder with
proportional fees, and realizes the matched portion only when costBasis > 0. -/
def stepEntry (st : MatchState) (e : StockEntry) : MatchState :=
  match e.type with
  | TxType.buy =>
    let queue := st.buyQueue ++ [⟨e.quantity, e.price, e.fees⟩]
    match resolvePendingSells queue st.realized st.consumed st.saleCostBases
        st.pendingSells with
    | (q, pend, real, cons, bases) =>
      { buyQueue := q, pendingSells := pend, realized := real,
        consumed := cons, saleCostBases := bases }
  | TxType.sell =>
    let r := consumeLots e.quantity 0 st.buyQueue
    let s := r.1
    let cb := r.2.1
    let queue1 := r.2.2
    let pending1 :=
      if s > 0 then
        st.pendingSells ++ [⟨s, e.price, e.fees * (s / e.quantity), e.date⟩]
      else st.pendingSells
    if cb > 0 then
      let sharesProcessed := e.quantity - s
      let proceeds :=
        sharesProcessed * e.price - e.fees * (sharesProcessed / e.quantity)
      { buyQueue := queue1, pendingSells := pending1,
        realized := st.realized + (proceeds - cb),
        consumed := st.consumed + cb,
        saleCostBases := st.saleCostBases ++ [cb] }
    else
      { buyQueue := queue1, pendingSells := pending1, realized := st.realized,
        consumed := st.consumed + cb, saleCostBases := st.saleCostBases }

/-- Run the FIFO matcher of calculateRealizedProfitLossForStock over the
date-sorted transaction list, starting from the empty state. -/
def runMatcher (stockEntries : List StockEntry) : MatchState :=
  (sortByDate stockEntries).foldl stepEntry
    { buyQueue := [], pendingSells := [], realized := 0, consumed := 0,
      saleCostBases := [] }

/-- Embedding of the trailing fallback of calculateRealizedProfitLossForStock
(lines 163-184): remaining pending sells are priced at the average cost of all
buy transactions (totalBuyCost / totalBuyShares, fees included); with no buy
transactions they contribute nothing. -/
def fallbackRealized (stockEntries : List StockEntry)
    (pending : List PendingSell) : ℚ :=
  if pending.isEmpty then 0
  else
    let allBuyEntries := stockEntries.filter fun e => e.type = TxType.buy
    if allBuyEntries.isEmpty then 0
    else
      let totalBuyCost :=
        (allBuyEntries.map fun e => e.quantity * e.price + e.fees).sum
      let totalBuyShares := (allBuyEntries.map fun e => e.quantity).sum
      if totalBuyShares > 0 then
        let avg := totalBuyCost / totalBuyShares
        (pending.map fun p =>
          (p.quantity * p.price - p.fees) - p.quantity * avg).sum
      else 0

/-- Embedding of calculateRealizedProfitLossForStock: realized total of the
FIFO matcher plus the average-cost fallback for unresolved pending sells. -/
def calculateRealizedProfitLossForStock (stockEntries : List StockEntry) : ℚ :=
  let st := runMatcher stockEntries
  st.realized + fallbackRealized stockEntries st.pendingSells

/-- Embedding of the sell branch of the simpler queue loop shared by
calculateFIFOAverageCost and calculateFIFOCostBasis: a buy pushes a lot, a
sell consumes from the front with no cost-basis bookkeeping and no pending
sells (unmatched sell quantity is silently discarded). -/
def fifoStep (queue : List BuyLot) (e : StockEntry) : List BuyLot :=
  match e.type with
  | TxType.buy => queue ++ [⟨e.quantity, e.price, e.fees⟩]
  | TxType.sell => (consumeLots e.quantity 0 queue).2.2

/-- Remaining open lots after the queue loop of calculateFIFOAverageCost and
calculateFIFOCostBasis. -/
def fifoRemainingLots (entries : List StockEntry) : List BuyLot :=
  (sortByDate entries).foldl fifoStep []

/-- Embedding of calculateFIFOCostBasis: total quantity * price + fees over
the remaining open lots. -/
def calculateFIFOCostBasis (entries : List StockEntry) : ℚ :=
  ((fifoRemainingLots entries).map fun l => l.quantity * l.price + l.fees).sum

/-- Embedding of calculateFIFOAverageCost: remaining cost basis divided by
remaining shares, or 0 when no shares remain. -/
def calculateFIFOAverageCost (entries : List StockEntry) : ℚ :=
  let lots := fifoRemainingLots entries
  let totalCostBasis := (lots.map fun l => l.quantity * l.price + l.fees).sum
  let totalShares := (lots.map fun l => l.quantity).sum
  if totalShares > 0 then totalCostBasis / totalShares else 0

/-- Remove later duplicates from a list of symbols, keeping the first
occurrence of each; seen accumulates symbols already emitted. -/
def dedupFirstAux : List String → List String → List String
  | [], _ => []
  | s :: rest, seen =>
    if s ∈ seen then dedupFirstAux rest seen
    else s :: dedupFirstAux rest (s :: seen)

/-- UTF-16 code units of a string: characters at or above U+10000 encode as
a surrogate pair.  Array.prototype.sort without a comparator orders strings
by exactly this code-unit sequence. -/
def utf16Units (s : String) : List ℕ :=
  s.data.foldr
    (fun c acc =>
      let v := c.toNat
      if v < 65536 then v :: acc
      else (55296 + (v - 65536) / 1024) :: (56320 + (v - 65536) % 1024) :: acc)
    []

/-- Lexicographic order on code-unit sequences: a strict prefix sorts first. -/
def unitsLt : List ℕ → List ℕ → Bool
  | [], [] => false
  | [], _ :: _ => true
  | _ :: _, [] => false
  | a :: as, b :: bs => if a < b then true else if b < a then false else unitsLt as bs

/-- JS default string order: compare the UTF-16 code-unit sequences. -/
def stringLtUtf16 (a b : String) : Bool :=
  unitsLt (utf16Units a) (utf16Units b)

/-- Insert a symbol into a list sorted ascending by the JS default string
order, before the first strictly larger element. -/
def insertSymbolSorted (s : String) : List String → List String
  | [] => [s]
  | x :: xs =>
    if stringLtUtf16 s x then s :: x :: xs else x :: insertSymbolSorted s xs

/-- Sort symbols ascending by the JS default string order, modelling the
comparator-free Array.prototype.sort call of getUniqueSymbols. -/
def sortSymbols (l : List String) : List String :=
  l.foldl (fun acc s => insertSymbolSorted s acc) []

/-- Embedding of getUniqueSymbols from the helpers module (staged at the
tail of GainLossCalculator.tsx): map the entries to their symbols, drop
later duplicates via new Set (which keeps first-appearance order), then
sort with the default string comparator. -/
def getUniqueSymbols (entries : List StockEntry) : List String :=
  sortSymbols (dedupFirstAux (entries.map fun e => e.symbol) [])

/-- Embedding of calculateSharesOwned from the helpers module (staged at
the tail of GainLossCalculator.tsx): over the entries of the symbol, a buy
adds its quantity to the running total and a sell subtracts it. -/
def calculateSharesOwned (entries : List StockEntry) (symbol : String) : ℚ :=
  (entries.filter fun e => e.symbol = symbol).foldl
    (fun total e =>
      match e.type with
      | TxType.buy => total + e.quantity
      | TxType.sell => total - e.quantity)
    0

/-- Embedding of calculateCurrentPortfolioValue: for each symbol with
sharesOwned > 0, value the holding at the most recent buy price (or, with no
buy entries, the most recent entry price), counting it only when that price
is positive. -/
def calculateCurrentPortfolioValue (entries : List StockEntry) : ℚ :=
  ((getUniqueSymbols entries).map fun symbol =>
    let sharesOwned := calculateSharesOwned entries symbol
    if sharesOwned > 0 then
      let buyEntries := sortByDateDesc (entries.filter fun e =>
        e.symbol = symbol ∧ e.type = TxType.buy)
      let priceToUse :=
        match buyEntries with
        | b :: _ => b.price
        | [] =>
          match sortByDateDesc (entries.filter fun e => e.symbol = symbol) with
          | l :: _ => l.price
          | [] => 0
      if priceToUse > 0 then sharesOwned * priceToUse else 0
    else 0).sum

/-- Embedding of the StockPosition record of types.ts. -/
structure StockPosition where
  symbol : String
  stockName : String
  totalSharesBought : ℚ
  totalSharesSold : ℚ
  sharesOwned : ℚ
  averageCost : ℚ
  totalInvested : ℚ
  totalReceived : ℚ
  realizedProfitLoss : ℚ
  currentValue : ℚ
  unrealizedGainLoss : ℚ
  totalGainLoss : ℚ
  remainingSharesCostBasis : ℚ
  transactions : List StockEntry
deriving DecidableEq, Repr

/-- Embedding of calculateStockPositions.  The optional price map is a total
function String → ℚ where an absent symbol yields 0, matching
currentMarketPrices?.[symbol] || 0.  The transactions field is the filtered
per-symbol list after the in-place date sort performed inside
calculateRealizedProfitLossForStock. -/
def calculateStockPositions (entries : List StockEntry)
    (prices : String → ℚ) : List StockPosition :=
  (getUniqueSymbols entries).map fun symbol =>
    let stockEntries := entries.filter fun e => e.symbol = symbol
    let stockName :=
      match stockEntries with
      | e :: _ => if e.stockName = "" then symbol else e.stockName
      | [] => symbol
    let buyEntries := stockEntries.filter fun e => e.type = TxType.buy
    let sellEntries := stockEntries.filter fun e => e.type = TxType.sell
    let totalSharesBought := (buyEntries.map fun e => e.quantity).sum
    let totalSharesSold := (sellEntries.map fun e => e.quantity).sum
    let sharesOwned := totalSharesBought - totalSharesSold
    let totalInvested :=
      (buyEntries.map fun e => e.quantity * e.price + e.fees).sum
    let totalReceived :=
      (sellEntries.map fun e => e.quantity * e.price - e.fees).sum
    let realizedProfitLoss := calculateRealizedProfitLossForStock stockEntries
    let averageCost := calculateFIFOAverageCost stockEntries
    let remainingSharesCostBasis := calculateFIFOCostBasis stockEntries
    let currentMarketPrice := prices symbol
    let currentValue :=
      if sharesOwned > 0 ∧ currentMarketPrice > 0
      then sharesOwned * currentMarketPrice else 0
    let unrealizedGainLoss :=
      if sharesOwned > 0 ∧ currentMarketPrice > 0
      then currentValue - remainingSharesCostBasis else 0
    let totalGainLoss := realizedProfitLoss + unrealizedGainLoss
    { symbol := symbol, stockName := stockName,
      totalSharesBought := totalSharesBought,
      totalSharesSold := totalSharesSold, sharesOwned := sharesOwned,
      averageCost := averageCost, totalInvested := totalInvested,
      totalReceived := totalReceived,
      realizedProfitLoss := realizedProfitLoss, currentValue := currentValue,
      unrealizedGainLoss := unrealizedGainLoss,
      totalGainLoss := totalGainLoss,
      remainingSharesCostBasis := remainingSharesCostBasis,
      transactions := sortByDate stockEntries }

/-- Embedding of calculateAllStockPositions, identical to
calculateStockPositions except that unrealizedGainLoss compares against
sharesOwned * averageCost instead of remainingSharesCostBasis. -/
def calculateAllStockPositions (entries : List StockEntry)
    (prices : String → ℚ) : List StockPosition :=
  (getUniqueSymbols entries).map fun symbol =>
    let stockEntries := entries.filter fun e => e.symbol = symbol
    let stockName :=
      match stockEntries with
      | e :: _ => if e.stockName = "" then symbol else e.stockName
      | [] => symbol
    let buyEntries := stockEntries.filter fun e => e.type = TxType.buy
    let sellEntries := stockEntries.filter fun e => e.type = TxType.sell
    let totalSharesBought := (buyEntries.map fun e => e.quantity).sum
    let totalSharesSold := (sellEntries.map fun e => e.quantity).sum
    let sharesOwned := totalSharesBought - totalSharesSold
    let totalInvested :=
      (buyEntries.map fun e => e.quantity * e.price + e.fees).sum
    let totalReceived :=
      (sellEntries.map fun e => e.quantity * e.price - e.fees).sum
    let realizedProfitLoss := calculateRealizedProfitLossForStock stockEntries
    let averageCost := calculateFIFOAverageCost stockEntries
    let remainingSharesCostBasis := calculateFIFOCostBasis stockEntries
    let currentMarketPrice := prices symbol
    let currentValue :=
      if sharesOwned > 0 ∧ currentMarketPrice > 0
      then sharesOwned * currentMarketPrice else 0
    let unrealizedGainLoss :=
      if sharesOwned > 0 ∧ currentMarketPrice > 0
      then currentValue - sharesOwned * averageCost else 0
    let totalGainLoss := realizedProfitLoss + unrealizedGainLoss
    { symbol := symbol, stockName := stockName,
      totalSharesBought := totalSharesBought,
      totalSharesSold := totalSharesSold, sharesOwned := sharesOwned,
      averageCost := averageCost, totalInvested := totalInvested,
      totalReceived := totalReceived,
      realizedProfitLoss := realizedProfitLoss, currentValue := currentValue,
      unrealizedGainLoss := unrealizedGainLoss,
      totalGainLoss := totalGainLoss,
      remainingSharesCostBasis := remainingSharesCostBasis,
      transactions := sortByDate stockEntries }

/-- Embedding of the PortfolioStats record of types.ts. -/
structure PortfolioStats where
  totalInvested : ℚ
  totalReceived : ℚ
  realizedProfitLoss : ℚ
  currentValue : ℚ
  unrealizedGainLoss : ℚ
  totalGainLoss : ℚ
  gainLossPercentage : ℚ
  uniqueStocks : ℕ
  stocksWithHoldings : ℕ
  totalTransactions : ℕ
deriving DecidableEq, Repr

/-- Embedding of calculatePortfolioStats.  Both position computations are
invoked without a price map, modelled by the constant-zero price function. -/
def calculatePortfolioStats (entries : List StockEntry) : PortfolioStats :=
  let uniqueStocks := getUniqueSymbols entries
  let totalTransactions := entries.length
  let buyEntries := entries.filter fun e => e.type = TxType.buy
  let sellEntries := entries.filter fun e => e.type = TxType.sell
  let totalInvested :=
    (buyEntries.map fun e => e.quantity * e.price + e.fees).sum
  let totalReceived :=
    (sellEntries.map fun e => e.quantity * e.price - e.fees).sum
  let currentValue := calculateCurrentPortfolioValue entries
  let allStockPositions := calculateStockPositions entries fun _ => 0
  let realizedProfitLoss :=
    (allStockPositions.map fun p => p.realizedProfitLoss).sum
  let allPositions := calculateAllStockPositions entries fun _ => 0
  let unrealizedGainLoss :=
    ((allPositions.filter fun p => p.sharesOwned > 0).map fun p =>
      p.unrealizedGainLoss).sum
  let totalGainLoss := realizedProfitLoss + unrealizedGainLoss
  let gainLossPercentage :=
    if totalInvested > 0 then totalGainLoss / totalInvested * 100 else 0
  let stocksWithHoldings :=
    ((allPositions.filter fun p => p.sharesOwned > 0).length)
  { totalInvested := totalInvested, totalReceived := totalReceived,
    realizedProfitLoss := realizedProfitLoss, currentValue := currentValue,
    unrealizedGainLoss := unrealizedGainLoss, totalGainLoss := totalGainLoss,
    gainLossPercentage := gainLossPercentage,
    uniqueStocks := uniqueStocks.length,
    stocksWithHoldings := stocksWithHoldings,
    totalTransactions := totalTransactions }

/-- Post-call contents of the array a caller passes directly to
calculateRealizedProfitLossForStock, calculateFIFOAverageCost or
calculateFIFOCostBasis: each begins with stockEntries.sort(...), and
Array.prototype.sort reorders the array in place, so after the call the
caller holds the date-sorted list rather than the original. -/
def callerEntriesAfterSort (stockEntries : List StockEntry) :
    List StockEntry :=
  sortByDate stockEntries

/-! Concrete transaction lists used by the claim theorems.  All use a single
symbol, as the FIFO matcher operates on the per-symbol list. -/

/-- Build a single-symbol transaction entry. -/
def mkEntry (ty : TxType) (q p : ℚ) (d : ℤ) (f : ℚ) : StockEntry :=
  { symbol := "A", stockName := "Acme", type := ty, quantity := q,
    price := p, date := d, fees := f }

/-- Buy 10 at 10 with a 10 total fee, then two sells of 5 (zero sell fees). -/
def feeSplitEntries : List StockEntry :=
  [mkEntry TxType.buy 10 10 1 10, mkEntry TxType.sell 5 12 2 0,
   mkEntry TxType.sell 5 12 3 0]

/-- Buy 10 at 10 with a 10 total fee, then one sell of 5. -/
def conservationEntries : List StockEntry :=
  [mkEntry TxType.buy 10 10 1 10, mkEntry TxType.sell 5 12 2 0]

/-- Buys B1 (10 at 10) then B2 (10 at 20), then a sell of 10 at 15. -/
def fifoOrderEntries : List StockEntry :=
  [mkEntry TxType.buy 10 10 1 0, mkEntry TxType.buy 10 20 2 0,
   mkEntry TxType.sell 10 15 3 0]

/-- Sell 5 at 20 dated before a buy of 10 at 10. -/
def sellBeforeBuyEntries : List StockEntry :=
  [mkEntry TxType.sell 5 20 1 0, mkEntry TxType.buy 10 10 2 0]

/-- Buy 10 at 10 then oversell 15 at 20, leaving a pending sell of 5. -/
def overSellEntries : List StockEntry :=
  [mkEntry TxType.buy 10 10 1 0, mkEntry TxType.sell 15 20 2 0]

/-- Single unmatched sell with no buy transaction at all. -/
def onlySellEntries : List StockEntry :=
  [mkEntry TxType.sell 5 20 1 0]

/-- Buy 10 at 10 then sell all 10 at 15 (fully-sold symbol). -/
def fullySoldEntries : List StockEntry :=
  [mkEntry TxType.buy 10 10 1 0, mkEntry TxType.sell 10 15 2 0]

/-- Single open buy of 10 at 10. -/
def singleBuyEntries : List StockEntry :=
  [mkEntry TxType.buy 10 10 1 0]

/-- Two buys listed in reverse date order. -/
def unsortedEntries : List StockEntry :=
  [mkEntry TxType.buy 5 20 2 0, mkEntry TxType.buy 5 10 1 0]

/-! Helper lemmas shared by the claim theorems. -/

lemma mem_insertEntryAsc {a e : StockEntry} :
    ∀ {l : List StockEntry}, a ∈ insertEntryAsc e l ↔ a = e ∨ a ∈ l := by
  intro l
  induction l with
  | nil => simp [insertEntryAsc]
  | cons x xs ih =>
    simp only [insertEntryAsc]
    by_cases h : e.date < x.date
    · simp [h]
    · simp only [h, if_false, List.mem_cons, ih]
      tauto

lemma mem_foldl_insertEntryAsc {a : StockEntry} :
    ∀ (l acc : List StockEntry),
      a ∈ l.foldl (fun acc e => insertEntryAsc e acc) acc ↔ a ∈ acc ∨ a ∈ l := by
  intro l
  induction l with
  | nil => simp
  | cons x xs ih =>
    intro acc
    simp only [List.foldl_cons, ih, mem_insertEntryAsc, List.mem_cons]
    tauto

lemma mem_sortByDate {a : StockEntry} {l : List StockEntry} :
    a ∈ sortByDate l ↔ a ∈ l := by
  simp [sortByDate, mem_foldl_insertEntryAsc]

lemma stepEntry_sell_empty_queue (pend : List PendingSell) (r c : ℚ)
    (b : List ℚ) (e : StockEntry) (he : e.type = TxType.sell) :
    stepEntry ⟨[], pend, r, c, b⟩ e =
      ⟨[], if e.quantity > 0
             then pend ++ [⟨e.quantity, e.price, e.fees * (e.quantity / e.quantity), e.date⟩]
             else pend, r, c, b⟩ := by
  simp [stepEntry, he, consumeLots]

lemma foldl_stepEntry_all_sell (l : List StockEntry) :
    ∀ (pend : List PendingSell) (r c : ℚ) (b : List ℚ),
      (∀ e ∈ l, e.type = TxType.sell) →
      (l.foldl stepEntry ⟨[], pend, r, c, b⟩).buyQueue = [] ∧
      (l.foldl stepEntry ⟨[], pend, r, c, b⟩).realized = r := by
  induction l with
  | nil => intro pend r c b _; simp
  | cons e t ih =>
    intro pend r c b h
    have he : e.type = TxType.sell := h e (by simp)
    have ht : ∀ x ∈ t, x.type = TxType.sell := fun x hx => h x (by simp [hx])
    simp only [List.foldl_cons, stepEntry_sell_empty_queue pend r c b e he]
    exact ih _ r c b ht

lemma fallbackRealized_no_buys {entries : List StockEntry}
    (h : entries.filter (fun e => e.type = TxType.buy) = []) :
    ∀ pending, fallbackRealized entries pending = 0 := by
  intro pending
  simp [fallbackRealized, h]

lemma realized_zero_of_all_sell {entries : List StockEntry}
    (h : ∀ e ∈ entries, e.type = TxType.sell) :
    calculateRealizedProfitLossForStock entries = 0 := by
  have hsorted : ∀ e ∈ sortByDate entries, e.type = TxType.sell :=
    fun e he => h e (mem_sortByDate.mp he)
  have hrun := foldl_stepEntry_all_sell (sortByDate entries) [] 0 0 [] hsorted
  have hfilter : entries.filter (fun e => e.type = TxType.buy) = [] := by
    rw [List.filter_eq_nil_iff]
    intro a ha
    simp [h a ha]
  simp only [calculateRealizedProfitLossForStock, runMatcher]
  rw [hrun.2, fallbackRealized_no_buys hfilter]
  simp

lemma mem_dedupFirstAux {a : String} :
    ∀ (l seen : List String),
      a ∈ dedupFirstAux l seen ↔ a ∈ l ∧ a ∉ seen := by
  intro l
  induction l with
  | nil => simp [dedupFirstAux]
  | cons s rest ih =>
    intro seen
    simp only [dedupFirstAux]
    by_cases h : s ∈ seen
    · simp only [h, if_true, ih, List.mem_cons]
      constructor
      · rintro ⟨hr, hn⟩; exact ⟨Or.inr hr, hn⟩
      · rintro ⟨hs | hr, hn⟩
        · exact absurd (hs ▸ h) hn
        · exact ⟨hr, hn⟩
    · simp only [h, if_false, List.mem_cons, ih]
      constructor
      · rintro (rfl | ⟨hr, hn⟩)
        · exact ⟨Or.inl rfl, h⟩
        · exact ⟨Or.inr hr, fun hx => hn (Or.inr hx)⟩
      · rintro ⟨hs | hr, hn⟩
        · exact Or.inl hs
        · by_cases has : a = s
          · exact Or.inl has
          · exact Or.inr ⟨hr, by simp [has, hn]⟩

lemma mem_insertSymbolSorted {a s : String} :
    ∀ {l : List String}, a ∈ insertSymbolSorted s l ↔ a = s ∨ a ∈ l := by
  intro l
  induction l with
  | nil => simp [insertSymbolSorted]
  | cons x xs ih =>
    simp only [insertSymbolSorted]
    by_cases h : stringLtUtf16 s x = true
    · rw [if_pos h]
      simp
    · rw [if_neg h]
      simp only [List.mem_cons, ih]
      tauto

lemma mem_foldl_insertSymbolSorted {a : String} :
    ∀ (l acc : List String),
      a ∈ l.foldl (fun acc s => insertSymbolSorted s acc) acc ↔
        a ∈ acc ∨ a ∈ l := by
  intro l
  induction l with
  | nil => simp
  | cons x xs ih =>
    intro acc
    simp only [List.foldl_cons, ih, mem_insertSymbolSorted, List.mem_cons]
    tauto

lemma mem_sortSymbols {a : String} {l : List String} :
    a ∈ sortSymbols l ↔ a ∈ l := by
  simp [sortSymbols, mem_foldl_insertSymbolSorted]

lemma mem_getUniqueSymbols {a : String} {entries : List StockEntry} :
    a ∈ getUniqueSymbols entries ↔ ∃ e ∈ entries, e.symbol = a := by
  simp [getUniqueSymbols, mem_sortSymbols, mem_dedupFirstAux]

lemma unrealized_zero_of_zero_prices {entries : List StockEntry}
    {p : StockPosition}
    (hp : p ∈ calculateAllStockPositions entries fun _ => 0) :
    p.unrealizedGainLoss = 0 := by
  simp only [calculateAllStockPositions, List.mem_map] at hp
  obtain ⟨s, _, rfl⟩ := hp
  simp

/-! Claim theorems. -/

/-- C1: the claim predicts cost bases of 55 and 55 for the two 5-share sells
against a 10-share at 10 lot carrying a 10 fee.  The code instead charges
fees / remainingQuantity without ever reducing the fee of a partially
consumed lot, so the recorded per-sale cost bases are 55 and then 60: the
second sale is charged the full 10 fee again on its 5 shares. -/
theorem fee_allocation_split_lot_eval :
    (runMatcher feeSplitEntries).saleCostBases = [55, 60] ∧
    ([55, 60] : List ℚ) ≠ [55, 55] := by
  constructor
  · norm_num [runMatcher, sortByDate, insertEntryAsc, stepEntry, consumeLots,
      resolvePendingSells, feeSplitEntries, mkEntry]
  · norm_num

/-- C2: conservation fails on buy 10 at 10 with fee 10 followed by sell 5:
the matcher consumes a cost basis of 55 while calculateFIFOCostBasis still
reports 60 for the remaining half lot (its full 10 fee again), so consumed
plus remaining is 115 against a total buy cost of 110. -/
theorem conservation_violation_eval :
    ((conservationEntries.filter fun e => e.type = TxType.buy).map
        fun e => e.quantity * e.price + e.fees).sum = 110 ∧
    (runMatcher conservationEntries).consumed = 55 ∧
    calculateFIFOCostBasis conservationEntries = 60 ∧
    (55 : ℚ) + 60 ≠ 110 := by
  refine ⟨?_, ?_, ?_, by norm_num⟩
  · simp [conservationEntries, mkEntry]
    norm_num
  · norm_num [runMatcher, sortByDate, insertEntryAsc, stepEntry, consumeLots,
      resolvePendingSells, conservationEntries, mkEntry]
  · norm_num [calculateFIFOCostBasis, fifoRemainingLots, fifoStep, sortByDate,
      insertEntryAsc, consumeLots, conservationEntries, mkEntry]

/-- C3: with buys B1 (10 at 10) then B2 (10 at 20) and a sell of 10 at 15,
the realized gain is 150 - 100 = 50, B1 is consumed entirely, the matcher
queue holds exactly the untouched lot of 10 at 20, and
calculateFIFOCostBasis returns 200. -/
theorem fifo_order_matching :
    calculateRealizedProfitLossForStock fifoOrderEntries = 50 ∧
    (runMatcher fifoOrderEntries).buyQueue = [⟨10, 20, 0⟩] ∧
    calculateFIFOCostBasis fifoOrderEntries = 200 := by
  refine ⟨?_, ?_, ?_⟩
  · norm_num [calculateRealizedProfitLossForStock, runMatcher, sortByDate,
      insertEntryAsc, stepEntry, consumeLots, resolvePendingSells,
      fallbackRealized, fifoOrderEntries, mkEntry]
  · norm_num [runMatcher, sortByDate, insertEntryAsc, stepEntry, consumeLots,
      resolvePendingSells, fifoOrderEntries, mkEntry]
  · norm_num [calculateFIFOCostBasis, fifoRemainingLots, fifoStep, sortByDate,
      insertEntryAsc, consumeLots, fifoOrderEntries, mkEntry]

/-- C4: a sell of 5 at 20 dated before the buy of 10 at 10 is parked as a
pending sell, then resolved against the later buy: the realized gain is
100 - 50 = 50, the pending list ends empty, and the matcher queue ends with
the remaining open lot of 5 shares at 10. -/
theorem sell_before_buy_resolution :
    calculateRealizedProfitLossForStock sellBeforeBuyEntries = 50 ∧
    (runMatcher sellBeforeBuyEntries).buyQueue = [⟨5, 10, 0⟩] ∧
    (runMatcher sellBeforeBuyEntries).pendingSells = [] := by
  refine ⟨?_, ?_, ?_⟩ <;>
    norm_num [calculateRealizedProfitLossForStock, runMatcher, sortByDate,
      insertEntryAsc, stepEntry, consumeLots, resolvePendingSells,
      fallbackRealized, sellBeforeBuyEntries, mkEntry]

/-- C8: the three direct FIFO entry points call Array.prototype.sort on the
caller array itself; on two buys listed newest-first the call leaves the
caller holding the date-ascending reordering, so the supplied order is not
preserved. -/
theorem in_place_sort_mutates_caller :
    callerEntriesAfterSort unsortedEntries =
      [mkEntry TxType.buy 5 10 1 0, mkEntry TxType.buy 5 20 2 0] ∧
    callerEntriesAfterSort unsortedEntries ≠ unsortedEntries := by
  constructor
  · norm_num [callerEntriesAfterSort, sortByDate, insertEntryAsc,
      unsortedEntries, mkEntry]
  · norm_num [callerEntriesAfterSort, sortByDate, insertEntryAsc,
      unsortedEntries, mkEntry, StockEntry.mk.injEq]

/-- C5: on buy 10 at 10 then oversell 15 at 20, the matcher realizes 100 for
the matched 10 shares and leaves a pending sell of 5 at 20; the final result
adds 5 * 20 - 5 * (100 / 10) = 50 for it, priced at the average cost of all
buys (fees included), giving 150.  With no buy transactions at all, the
result is exactly 0. -/
theorem pending_sell_fallback :
    ((runMatcher overSellEntries).realized = 100 ∧
     (runMatcher overSellEntries).pendingSells = [⟨5, 20, 0, 2⟩] ∧
     calculateRealizedProfitLossForStock overSellEntries = 150) ∧
    ∀ (entries : List StockEntry),
      (∀ e ∈ entries, e.type = TxType.sell) →
      calculateRealizedProfitLossForStock entries = 0 := by
  constructor
  · refine ⟨?_, ?_, ?_⟩ <;>
    · simp [calculateRealizedProfitLossForStock, runMatcher, sortByDate,
        insertEntryAsc, stepEntry, consumeLots, resolvePendingSells,
        fallbackRealized, overSellEntries, mkEntry]
      norm_num
  · exact fun entries h => realized_zero_of_all_sell h

/-- C5 witness: the no-buy branch of pending_sell_fallback applied to a
single unmatched sell. -/
theorem pending_sell_fallback_witness :
    (∀ e ∈ onlySellEntries, e.type = TxType.sell) ∧
    calculateRealizedProfitLossForStock onlySellEntries = 0 :=
  ⟨by simp [onlySellEntries, mkEntry],
   pending_sell_fallback.2 onlySellEntries (by simp [onlySellEntries, mkEntry])⟩

/-- C6: calculateStockPositions returns exactly one position per distinct
symbol of the input (a symbol is listed precisely when some transaction
carries it), and on buy 10 at 10 then sell 10 at 15 the fully-sold symbol
still yields a position with sharesOwned 0 and realized gain 50, counted in
uniqueStocks but not in stocksWithHoldings. -/
theorem positions_cover_all_symbols :
    (∀ (entries : List StockEntry) (prices : String → ℚ),
      (calculateStockPositions entries prices).map (fun p => p.symbol) =
        getUniqueSymbols entries) ∧
    (∀ (entries : List StockEntry) (s : String),
      s ∈ getUniqueSymbols entries ↔ ∃ e ∈ entries, e.symbol = s) ∧
    (calculateStockPositions fullySoldEntries fun _ => 0).map
        (fun p => (p.sharesOwned, p.realizedProfitLoss)) = [(0, 50)] ∧
    (calculatePortfolioStats fullySoldEntries).uniqueStocks = 1 ∧
    (calculatePortfolioStats fullySoldEntries).stocksWithHoldings = 0 := by
  refine ⟨?_, ?_, ?_, ?_, ?_⟩
  · intro entries prices
    simp only [calculateStockPositions, List.map_map]
    exact List.map_id _
  · intro entries s
    exact mem_getUniqueSymbols
  · simp [calculateStockPositions, calculateRealizedProfitLossForStock,
      runMatcher, sortByDate, insertEntryAsc, stepEntry, consumeLots,
      resolvePendingSells, fallbackRealized, getUniqueSymbols, sortSymbols, insertSymbolSorted, dedupFirstAux,
      fullySoldEntries, mkEntry]
    norm_num
  · simp [calculatePortfolioStats, getUniqueSymbols, sortSymbols, insertSymbolSorted, dedupFirstAux,
      fullySoldEntries, mkEntry]
  · simp [calculatePortfolioStats, calculateAllStockPositions,
      calculateRealizedProfitLossForStock, runMatcher, sortByDate,
      insertEntryAsc, stepEntry, consumeLots, resolvePendingSells,
      fallbackRealized, calculateFIFOAverageCost, calculateFIFOCostBasis,
      fifoRemainingLots, fifoStep, getUniqueSymbols, sortSymbols, insertSymbolSorted, dedupFirstAux,
      fullySoldEntries, mkEntry]

/-- C7: the empty transaction list yields a PortfolioStats with every field
0, and in general the gain/loss percentage is totalGainLoss / totalInvested
times 100 when totalInvested is positive and 0 otherwise, so the zero
denominator is never divided. -/
theorem portfolio_stats_zero_safety :
    calculatePortfolioStats [] =
      { totalInvested := 0, totalReceived := 0, realizedProfitLoss := 0,
        currentValue := 0, unrealizedGainLoss := 0, totalGainLoss := 0,
        gainLossPercentage := 0, uniqueStocks := 0, stocksWithHoldings := 0,
        totalTransactions := 0 } ∧
    ∀ (entries : List StockEntry),
      (calculatePortfolioStats entries).gainLossPercentage =
        if (calculatePortfolioStats entries).totalInvested > 0 then
          (calculatePortfolioStats entries).totalGainLoss /
            (calculatePortfolioStats entries).totalInvested * 100
        else 0 := by
  constructor
  · norm_num [calculatePortfolioStats, calculateStockPositions,
      calculateAllStockPositions, calculateCurrentPortfolioValue,
      getUniqueSymbols, sortSymbols, insertSymbolSorted, dedupFirstAux]
  · intro entries
    rfl

/-- C9: the realizedProfitLoss, totalInvested and totalReceived fields of
every position are identical whichever price map is supplied; only the
valuation fields read the prices. -/
theorem realized_fields_price_independent :
    ∀ (entries : List StockEntry) (p1 p2 : String → ℚ),
      (calculateStockPositions entries p1).map
        (fun p => (p.realizedProfitLoss, p.totalInvested, p.totalReceived)) =
      (calculateStockPositions entries p2).map
        (fun p => (p.realizedProfitLoss, p.totalInvested, p.totalReceived)) := by
  intro entries p1 p2
  simp only [calculateStockPositions, List.map_map]
  rfl

/-- C10: calculatePortfolioStats always reports an unrealizedGainLoss of 0,
because it invokes the position computation without a price map and each
unrealized figure is gated on a positive supplied price; meanwhile
currentValue can still be nonzero through the most-recent-buy-price
fallback, as on a single buy of 10 at 10. -/
theorem portfolio_unrealized_always_zero :
    (∀ entries : List StockEntry,
      (calculatePortfolioStats entries).unrealizedGainLoss = 0) ∧
    (calculatePortfolioStats singleBuyEntries).currentValue = 100 := by
  constructor
  · intro entries
    show (((calculateAllStockPositions entries fun _ => 0).filter
        (fun p => p.sharesOwned > 0)).map fun p => p.unrealizedGainLoss).sum = 0
    refine List.sum_eq_zero ?_
    intro x hx
    simp only [List.mem_map] at hx
    obtain ⟨p, hp, rfl⟩ := hx
    exact unrealized_zero_of_zero_prices (List.mem_of_mem_filter hp)
  · simp [calculatePortfolioStats, calculateCurrentPortfolioValue,
      calculateSharesOwned, getUniqueSymbols, sortSymbols, insertSymbolSorted, dedupFirstAux, sortByDateDesc,
      insertEntryDesc, singleBuyEntries, mkEntry]
    norm_num

end StockGain
